import Mathlib

/-!
Verification of the Revnet simulator (`src/main.js`, current engine snapshot).

The JavaScript engine is shallowly embedded over exact rationals (`ℚ`):
JavaScript `number` arithmetic is modelled by exact rational arithmetic, which
is the idealisation the specification itself appeals to ("up to floating-point
tolerance").  Division by zero yields `0` in `ℚ` where JavaScript would produce
`NaN`/`Infinity`; every theorem below carries hypotheses that keep the
denominators it depends on away from zero, except for `getPriceCeiling`, whose
single relevant infinity (`1/0`) is modelled faithfully with `WithTop ℚ`.
Days are natural numbers, as produced by the simulation loop.
-/

/-- Constant product AMM liquidity pool (x*y==k), mirroring `class Pool`. -/
structure Pool where
  eth : ℚ
  revnetToken : ℚ
  dayDeployed : ℚ
  fee : ℚ
  ethFeesAccumulated : ℚ
  revnetTokenFeesAccumulated : ℚ
deriving DecidableEq

namespace Pool

/-- Pool constructor: fee accumulators start at zero. -/
def create (eth revnetToken dayDeployed fee : ℚ) : Pool :=
  { eth := eth, revnetToken := revnetToken, dayDeployed := dayDeployed,
    fee := fee, ethFeesAccumulated := 0, revnetTokenFeesAccumulated := 0 }

/-- `provideEth`: add ETH liquidity. -/
def provideEth (p : Pool) (amount : ℚ) : Pool :=
  { p with eth := p.eth + amount }

/-- `provideRevnetTokens`: add Revnet token liquidity. -/
def provideRevnetTokens (p : Pool) (amount : ℚ) : Pool :=
  { p with revnetToken := p.revnetToken + amount }

/-- `getMarginalPriceOfRevnetToken`: price of 1 Revnet token in ETH. -/
def getMarginalPriceOfRevnetToken (p : Pool) : ℚ :=
  p.eth / p.revnetToken

/-- `getEthReturnPlusFee`: ETH out (before fee) for spending Revnet tokens. -/
def getEthReturnPlusFee (p : Pool) (revnetTokenAmount : ℚ) : ℚ :=
  p.eth - p.eth * p.revnetToken / (p.revnetToken + revnetTokenAmount)

/-- `getEthReturn`: ETH out (after fee) for spending Revnet tokens. -/
def getEthReturn (p : Pool) (revnetTokenAmount : ℚ) : ℚ :=
  (p.eth - p.eth * p.revnetToken / (p.revnetToken + revnetTokenAmount)) * (1 - p.fee)

/-- `getRevnetTokenReturnPlusFee`: tokens out (before fee) for spending ETH. -/
def getRevnetTokenReturnPlusFee (p : Pool) (ethAmount : ℚ) : ℚ :=
  p.revnetToken - p.eth * p.revnetToken / (p.eth + ethAmount)

/-- `getRevnetTokenReturn`: tokens out (after fee) for spending ETH. -/
def getRevnetTokenReturn (p : Pool) (ethAmount : ℚ) : ℚ :=
  (p.revnetToken - p.eth * p.revnetToken / (p.eth + ethAmount)) * (1 - p.fee)

/-- `buyEth`: spend Revnet tokens to buy ETH.  Returns the net ETH and the
updated pool; the fee is moved to `ethFeesAccumulated`, not kept in reserves. -/
def buyEth (p : Pool) (revnetTokenAmount : ℚ) : ℚ × Pool :=
  let invariant := p.eth * p.revnetToken
  let newRevnetTokenBalance := p.revnetToken + revnetTokenAmount
  let newEthBalance := invariant / newRevnetTokenBalance
  let ethAmount := p.eth - newEthBalance
  let ethFeeAmount := ethAmount * p.fee
  (ethAmount - ethFeeAmount,
   { p with revnetToken := newRevnetTokenBalance, eth := newEthBalance,
            ethFeesAccumulated := p.ethFeesAccumulated + ethFeeAmount })

/-- `buyRevnetTokens`: spend ETH to buy Revnet tokens. -/
def buyRevnetTokens (p : Pool) (ethAmount : ℚ) : ℚ × Pool :=
  let invariant := p.eth * p.revnetToken
  let newEthBalance := p.eth + ethAmount
  let newRevnetTokenBalance := invariant / newEthBalance
  let revnetTokenAmount := p.revnetToken - newRevnetTokenBalance
  let revnetTokenFeeAmount := revnetTokenAmount * p.fee
  (revnetTokenAmount - revnetTokenFeeAmount,
   { p with eth := newEthBalance, revnetToken := newRevnetTokenBalance,
            revnetTokenFeesAccumulated := p.revnetTokenFeesAccumulated + revnetTokenFeeAmount })

end Pool

/-- A trade executed against the pool: either of the two mutating entry points. -/
inductive Trade where
  | buyEth (revnetTokenAmount : ℚ)
  | buyRevnetTokens (ethAmount : ℚ)
deriving DecidableEq

/-- Input amount of a trade. -/
def Trade.amount : Trade → ℚ
  | .buyEth x => x
  | .buyRevnetTokens x => x

/-- Execute one trade against the pool, keeping the updated pool state. -/
def Pool.applyTrade (p : Pool) : Trade → Pool
  | .buyEth x => (p.buyEth x).2
  | .buyRevnetTokens x => (p.buyRevnetTokens x).2

/-- Execute a sequence of trades left to right. -/
def Pool.applyTrades (p : Pool) (ts : List Trade) : Pool :=
  ts.foldl Pool.applyTrade p

/-- Simplified representation of a Revnet, mirroring `class Revnet`. -/
structure Revnet where
  priceCeilingIncreasePercentage : ℚ
  priceCeilingIncreaseFrequencyInDays : ℚ
  priceFloorTaxIntensity : ℚ
  premintAmount : ℚ
  boostPercent : ℚ
  boostDurationInDays : ℚ
  tokensSentToBoost : ℚ
  tokenSupply : ℚ
  ethBalance : ℚ
deriving DecidableEq

namespace Revnet

/-- Revnet constructor: the premint goes to the boost and into the supply;
the ETH balance starts at zero. -/
def create (priceCeilingIncreasePercentage priceCeilingIncreaseFrequencyInDays
    priceFloorTaxIntensity premintAmount boostPercent boostDurationInDays : ℚ) : Revnet :=
  { priceCeilingIncreasePercentage := priceCeilingIncreasePercentage,
    priceCeilingIncreaseFrequencyInDays := priceCeilingIncreaseFrequencyInDays,
    priceFloorTaxIntensity := priceFloorTaxIntensity,
    premintAmount := premintAmount,
    boostPercent := boostPercent,
    boostDurationInDays := boostDurationInDays,
    tokensSentToBoost := premintAmount,
    tokenSupply := premintAmount,
    ethBalance := 0 }

/-- `getTokensCreatedPerEth`: `(1 - pct) ^ floor(day / frequency)`.  The day is
a natural number (the simulation day counter); `Math.floor` becomes `Int.floor`
followed by `toNat` (the exponent is nonnegative whenever the frequency is
positive, the documented domain). -/
def getTokensCreatedPerEth (r : Revnet) (day : ℕ) : ℚ :=
  (1 - r.priceCeilingIncreasePercentage) ^
    (⌊(day : ℚ) / r.priceCeilingIncreaseFrequencyInDays⌋).toNat

/-- `getEthReclaimAmount`: ETH reclaimable by destroying a number of tokens. -/
def getEthReclaimAmount (r : Revnet) (tokensBeingDestroyed : ℚ) : ℚ :=
  let ratioBeingDestroyed := tokensBeingDestroyed / r.tokenSupply
  let intensityTerm :=
    ratioBeingDestroyed * r.priceFloorTaxIntensity + 1 - r.priceFloorTaxIntensity
  r.ethBalance * ratioBeingDestroyed * intensityTerm

/-- `createTokensAtCeiling`: pay ETH, mint tokens at the ceiling price; while
the boost is running, a `boostPercent` cut of the minted tokens goes to the
boost.  Returns the payer's tokens and the updated Revnet. -/
def createTokensAtCeiling (r : Revnet) (ethAmount : ℚ) (day : ℕ) : ℚ × Revnet :=
  let tokenAmount := ethAmount * r.getTokensCreatedPerEth day
  let r1 : Revnet :=
    { r with ethBalance := r.ethBalance + ethAmount,
             tokenSupply := r.tokenSupply + tokenAmount }
  if (day : ℚ) < r.boostDurationInDays then
    (tokenAmount * (1 - r.boostPercent),
     { r1 with tokensSentToBoost := r1.tokensSentToBoost + tokenAmount * r.boostPercent })
  else
    (tokenAmount, r1)

/-- `destroyTokensAtFloor`: burn tokens, reclaim ETH at the floor price. -/
def destroyTokensAtFloor (r : Revnet) (tokenAmount : ℚ) : ℚ × Revnet :=
  let ethAmount := r.getEthReclaimAmount tokenAmount
  (ethAmount,
   { r with tokenSupply := r.tokenSupply - tokenAmount,
            ethBalance := r.ethBalance - ethAmount })

end Revnet

/-- Reciprocal with the IEEE behaviour of `1/x` for nonnegative `x`: the
division by zero arising in `getPriceCeiling` when the mint rate has decayed to
zero produces `Infinity` in JavaScript, modelled as `⊤` in `WithTop ℚ`. -/
def jsRecip (x : ℚ) : WithTop ℚ :=
  if x = 0 then ⊤ else ((x⁻¹ : ℚ) : WithTop ℚ)

/-- `getPriceCeiling`: `1 / getTokensCreatedPerEth(day)`. -/
def Revnet.getPriceCeiling (r : Revnet) (day : ℕ) : WithTop ℚ :=
  jsRecip (r.getTokensCreatedPerEth day)

/- ------------------------------------------------------------------ -/
/- Helper lemmas.                                                     -/
/- ------------------------------------------------------------------ -/

/-- The constant-product quotient never exceeds the untouched reserve. -/
lemma cp_div_le {e r a : ℚ} (he : 0 ≤ e) (hr : 0 ≤ r) (ha : 0 ≤ a) :
    e * r / (e + a) ≤ r := by
  rcases eq_or_lt_of_le (add_nonneg he ha) with h | h
  · rw [← h, div_zero]
    exact hr
  · rw [div_le_iff₀ h]
    nlinarith

/-- The constant-product quotient is nonnegative on nonnegative data. -/
lemma cp_div_nonneg {e r a : ℚ} (he : 0 ≤ e) (hr : 0 ≤ r) (ha : 0 ≤ a) :
    0 ≤ e * r / (e + a) :=
  div_nonneg (mul_nonneg he hr) (add_nonneg he ha)

/-- `jsRecip` is antitone on nonnegative arguments (with `1/0 = ⊤`). -/
lemma jsRecip_antitone {x y : ℚ} (hy : 0 ≤ y) (hyx : y ≤ x) :
    jsRecip x ≤ jsRecip y := by
  by_cases hy0 : y = 0
  · simp [jsRecip, hy0]
  · have hy' : 0 < y := lt_of_le_of_ne hy (Ne.symm hy0)
    have hx' : 0 < x := lt_of_lt_of_le hy' hyx
    rw [jsRecip, jsRecip, if_neg (ne_of_gt hx'), if_neg hy0]
    exact_mod_cast inv_anti₀ hy' hyx

/-- One pool trade with a positive input on positive reserves keeps the
product of reserves exactly, and keeps both reserves positive. -/
lemma applyTrade_product (p : Pool) (t : Trade) (he : 0 < p.eth)
    (hr : 0 < p.revnetToken) (ht : 0 < t.amount) :
    (p.applyTrade t).eth * (p.applyTrade t).revnetToken = p.eth * p.revnetToken ∧
    0 < (p.applyTrade t).eth ∧ 0 < (p.applyTrade t).revnetToken := by
  cases t with
  | buyEth x =>
    simp only [Trade.amount] at ht
    have hrx : (0 : ℚ) < p.revnetToken + x := by linarith
    refine ⟨?_, ?_, ?_⟩
    · simp only [Pool.applyTrade, Pool.buyEth]
      rw [div_mul_cancel₀ _ (ne_of_gt hrx)]
    · simp only [Pool.applyTrade, Pool.buyEth]
      exact div_pos (mul_pos he hr) hrx
    · simp only [Pool.applyTrade, Pool.buyEth]
      exact hrx
  | buyRevnetTokens x =>
    simp only [Trade.amount] at ht
    have hex : (0 : ℚ) < p.eth + x := by linarith
    refine ⟨?_, ?_, ?_⟩
    · simp only [Pool.applyTrade, Pool.buyRevnetTokens]
      rw [mul_comm, div_mul_cancel₀ _ (ne_of_gt hex)]
    · simp only [Pool.applyTrade, Pool.buyRevnetTokens]
      exact hex
    · simp only [Pool.applyTrade, Pool.buyRevnetTokens]
      exact div_pos (mul_pos he hr) hex

/-- Across any sequence of positive-input trades on positive reserves, the
product of reserves is exactly preserved and the reserves stay positive. -/
lemma applyTrades_product (ts : List Trade) (p : Pool) (he : 0 < p.eth)
    (hr : 0 < p.revnetToken) (hts : ∀ t ∈ ts, 0 < t.amount) :
    (p.applyTrades ts).eth * (p.applyTrades ts).revnetToken = p.eth * p.revnetToken ∧
    0 < (p.applyTrades ts).eth ∧ 0 < (p.applyTrades ts).revnetToken := by
  induction ts generalizing p with
  | nil => exact ⟨rfl, he, hr⟩
  | cons t ts ih =>
    have h1 := applyTrade_product p t he hr (hts t (List.mem_cons_self t ts))
    have h2 := ih (p.applyTrade t) h1.2.1 h1.2.2
      (fun u hu => hts u (List.mem_cons_of_mem t hu))
    exact ⟨h2.1.trans h1.1, h2.2⟩

/- ------------------------------------------------------------------ -/
/- Claims C2..C6.                                                      -/
/- ------------------------------------------------------------------ -/

/-- Concrete Revnet used to refute C2 as universally stated: a fresh Revnet
with a premint of 1 token and zero ETH balance. -/
def revnetCexC2 : Revnet := Revnet.create 0 1 0 1 0 0

/-- C2 counterexample: for `revnetCexC2` (premint 1, zero ETH balance,
`floorTaxIntensity = 0`, boost already over on day 0), paying `amountIn = 1`
into `createTokensAtCeiling` and immediately destroying the tokens received
returns `1/2`, not `amountIn = 1`.  So the round trip is not the identity for
every Revnet state. -/
theorem roundTrip_not_always_amountIn :
    (0 : ℚ) < 1 ∧
    revnetCexC2.priceFloorTaxIntensity = 0 ∧
    revnetCexC2.boostDurationInDays ≤ ((0 : ℕ) : ℚ) ∧
    ((revnetCexC2.createTokensAtCeiling 1 0).2.destroyTokensAtFloor
        (revnetCexC2.createTokensAtCeiling 1 0).1).1 = 1 / 2 ∧
    ((revnetCexC2.createTokensAtCeiling 1 0).2.destroyTokensAtFloor
        (revnetCexC2.createTokensAtCeiling 1 0).1).1 ≠ 1 := by
  norm_num [revnetCexC2, Revnet.create, Revnet.createTokensAtCeiling,
    Revnet.destroyTokensAtFloor, Revnet.getEthReclaimAmount, Revnet.getTokensCreatedPerEth]

/-- C2 (amended): if additionally the pre-state is balanced at the ceiling
(`ethBalance * getTokensCreatedPerEth day = tokenSupply`, which in particular
holds for a freshly deployed Revnet with zero balance and zero supply), the
zero-tax, post-boost, same-day round trip returns exactly `amountIn`. -/
theorem roundTrip_exact_of_balanced (r : Revnet) (a : ℚ) (day : ℕ)
    (ha : 0 < a)
    (htax : r.priceFloorTaxIntensity = 0)
    (hday : r.boostDurationInDays ≤ (day : ℚ))
    (hE : 0 ≤ r.ethBalance)
    (hc : 0 < r.getTokensCreatedPerEth day)
    (hbal : r.ethBalance * r.getTokensCreatedPerEth day = r.tokenSupply) :
    ((r.createTokensAtCeiling a day).2.destroyTokensAtFloor
        (r.createTokensAtCeiling a day).1).1 = a := by
  set c := r.getTokensCreatedPerEth day with hcdef
  have hnot : ¬((day : ℚ) < r.boostDurationInDays) := not_lt.mpr hday
  simp only [Revnet.createTokensAtCeiling, Revnet.destroyTokensAtFloor,
    Revnet.getEthReclaimAmount, if_neg hnot, ← hcdef]
  rw [htax, ← hbal]
  have hden : r.ethBalance * c + a * c ≠ 0 := by
    have : 0 < (r.ethBalance + a) * c := mul_pos (by linarith) hc
    intro h
    apply ne_of_gt this
    linarith [h]
  field_simp
  ring

/-- C3: across any sequence of positive-input trades on a pool with positive
reserves, the product `eth * revnetToken` is exactly unchanged when the fee is
zero, and never decreases when the fee is positive (the code extracts fees
into side accumulators, so the product is in fact exactly invariant). -/
theorem pool_product_invariant (p : Pool) (ts : List Trade)
    (he : 0 < p.eth) (hr : 0 < p.revnetToken)
    (hts : ∀ t ∈ ts, 0 < t.amount) :
    (p.fee = 0 →
      (p.applyTrades ts).eth * (p.applyTrades ts).revnetToken = p.eth * p.revnetToken) ∧
    (0 < p.fee →
      p.eth * p.revnetToken ≤ (p.applyTrades ts).eth * (p.applyTrades ts).revnetToken) := by
  have h := applyTrades_product ts p he hr hts
  exact ⟨fun _ => h.1, fun _ => le_of_eq h.1.symm⟩

/-- Pool used for the C3 witness: reserves `(10, 10)`, zero fee. -/
def poolWitC3 : Pool := Pool.create 10 10 0 0

/-- C3 witness at the spec's own scenario: pool `(10, 10)`, one trade spending
2 ETH. -/
theorem pool_product_invariant_witness :
    (poolWitC3.fee = 0 →
      (poolWitC3.applyTrades [Trade.buyRevnetTokens 2]).eth *
        (poolWitC3.applyTrades [Trade.buyRevnetTokens 2]).revnetToken =
      poolWitC3.eth * poolWitC3.revnetToken) ∧
    (0 < poolWitC3.fee →
      poolWitC3.eth * poolWitC3.revnetToken ≤
        (poolWitC3.applyTrades [Trade.buyRevnetTokens 2]).eth *
          (poolWitC3.applyTrades [Trade.buyRevnetTokens 2]).revnetToken) :=
  pool_product_invariant poolWitC3 [Trade.buyRevnetTokens 2]
    (by norm_num [poolWitC3, Pool.create])
    (by norm_num [poolWitC3, Pool.create])
    (by intro t ht
        rw [List.mem_singleton] at ht
        subst ht
        norm_num [Trade.amount])

/-- C4: redeeming 100% of the token supply returns exactly the ETH balance,
for every floor-tax intensity. -/
theorem reclaim_full_supply (r : Revnet) (h : 0 < r.tokenSupply) :
    r.getEthReclaimAmount r.tokenSupply = r.ethBalance := by
  simp only [Revnet.getEthReclaimAmount, div_self (ne_of_gt h)]
  ring

/-- Concrete Revnet for the C4 witness: supply 4, balance 7, tax 1/3. -/
def revnetWitC4 : Revnet :=
  { revnetCexC2 with
      tokenSupply := 4
      ethBalance := 7
      priceFloorTaxIntensity := 1/3 }

/-- C4 witness: `revnetWitC4` redeems its whole supply of 4 for exactly its
balance 7. -/
theorem reclaim_full_supply_witness :
    revnetWitC4.getEthReclaimAmount revnetWitC4.tokenSupply = revnetWitC4.ethBalance :=
  reclaim_full_supply revnetWitC4 (by norm_num [revnetWitC4, revnetCexC2, Revnet.create])

/-- Concrete Revnet used to refute C5 as stated: positive tax, positive
supply, but a zero ETH balance, where the reclaim amount equals (rather than
undercuts) the pro-rata amount. -/
def revnetCexC5 : Revnet :=
  { revnetCexC2 with priceFloorTaxIntensity := 1, tokenSupply := 1, ethBalance := 0 }

/-- C5 counterexample: with `priceFloorTaxIntensity = 1 > 0`, `tokenSupply = 1 > 0`
and share `1/2 ∈ (0,1)` but `ethBalance = 0`, the reclaim amount equals the
pro-rata amount `0`; it is not strictly less. -/
theorem reclaim_not_always_lt_proRata :
    0 < revnetCexC5.priceFloorTaxIntensity ∧
    0 < revnetCexC5.tokenSupply ∧
    0 < (1/2 : ℚ) / revnetCexC5.tokenSupply ∧
    (1/2 : ℚ) / revnetCexC5.tokenSupply < 1 ∧
    ¬(revnetCexC5.getEthReclaimAmount (1/2) <
        revnetCexC5.ethBalance * ((1/2) / revnetCexC5.tokenSupply)) := by
  norm_num [revnetCexC5, revnetCexC2, Revnet.create, Revnet.getEthReclaimAmount]

/-- C5 (amended): with a positive ETH balance in addition, a positive tax and
a share strictly between 0 and 1 make the reclaim amount strictly less than
the pro-rata amount. -/
theorem reclaim_lt_proRata (r : Revnet) (x : ℚ)
    (htax : 0 < r.priceFloorTaxIntensity)
    (hsup : 0 < r.tokenSupply)
    (hE : 0 < r.ethBalance)
    (h0 : 0 < x / r.tokenSupply)
    (h1 : x / r.tokenSupply < 1) :
    r.getEthReclaimAmount x < r.ethBalance * (x / r.tokenSupply) := by
  simp only [Revnet.getEthReclaimAmount]
  nlinarith [mul_pos (mul_pos hE h0) (mul_pos htax (sub_pos.mpr h1))]

/-- Concrete Revnet for the C5 witness: supply 2, balance 3, tax 1/2. -/
def revnetWitC5 : Revnet :=
  { revnetCexC2 with
      tokenSupply := 2
      ethBalance := 3
      priceFloorTaxIntensity := 1/2 }

/-- C5 witness: destroying 1 of `revnetWitC5`'s 2 tokens (share 1/2) reclaims
strictly less than the pro-rata amount. -/
theorem reclaim_lt_proRata_witness :
    revnetWitC5.getEthReclaimAmount 1 <
      revnetWitC5.ethBalance * (1 / revnetWitC5.tokenSupply) :=
  reclaim_lt_proRata revnetWitC5 1
    (by norm_num [revnetWitC5, revnetCexC2, Revnet.create])
    (by norm_num [revnetWitC5, revnetCexC2, Revnet.create])
    (by norm_num [revnetWitC5, revnetCexC2, Revnet.create])
    (by norm_num [revnetWitC5, revnetCexC2, Revnet.create])
    (by norm_num [revnetWitC5, revnetCexC2, Revnet.create])

/-- C6: with `0 ≤ pct ≤ 1` and a positive step frequency, the mint rate
`getTokensCreatedPerEth` is non-increasing in the day and the price ceiling
`getPriceCeiling` is non-decreasing in the day (the ceiling takes the value
`⊤`, JavaScript `Infinity`, once the mint rate decays to zero at `pct = 1`). -/
theorem mintRate_antitone_priceCeiling_monotone (r : Revnet)
    (h0 : 0 ≤ r.priceCeilingIncreasePercentage)
    (h1 : r.priceCeilingIncreasePercentage ≤ 1)
    (hf : 0 < r.priceCeilingIncreaseFrequencyInDays)
    (d1 d2 : ℕ) (hd : d1 ≤ d2) :
    r.getTokensCreatedPerEth d2 ≤ r.getTokensCreatedPerEth d1 ∧
    r.getPriceCeiling d1 ≤ r.getPriceCeiling d2 := by
  have hbase0 : (0 : ℚ) ≤ 1 - r.priceCeilingIncreasePercentage := by linarith
  have hbase1 : (1 : ℚ) - r.priceCeilingIncreasePercentage ≤ 1 := by linarith
  have hdiv : (d1 : ℚ) / r.priceCeilingIncreaseFrequencyInDays ≤
      (d2 : ℚ) / r.priceCeilingIncreaseFrequencyInDays :=
    (div_le_div_iff_of_pos_right hf).mpr (by exact_mod_cast hd)
  have hexp : (⌊(d1 : ℚ) / r.priceCeilingIncreaseFrequencyInDays⌋).toNat ≤
      (⌊(d2 : ℚ) / r.priceCeilingIncreaseFrequencyInDays⌋).toNat :=
    Int.toNat_le_toNat (Int.floor_le_floor hdiv)
  have hmono : r.getTokensCreatedPerEth d2 ≤ r.getTokensCreatedPerEth d1 :=
    pow_le_pow_of_le_one hbase0 hbase1 hexp
  refine ⟨hmono, ?_⟩
  exact jsRecip_antitone (pow_nonneg hbase0 _) hmono

/-- C6 witness: `pct = 1/2`, frequency 2, days 1 and 5. -/
theorem mintRate_antitone_priceCeiling_monotone_witness :
    (Revnet.create (1/2) 2 0 0 0 0).getTokensCreatedPerEth 5 ≤
      (Revnet.create (1/2) 2 0 0 0 0).getTokensCreatedPerEth 1 ∧
    (Revnet.create (1/2) 2 0 0 0 0).getPriceCeiling 1 ≤
      (Revnet.create (1/2) 2 0 0 0 0).getPriceCeiling 5 :=
  mintRate_antitone_priceCeiling_monotone (Revnet.create (1/2) 2 0 0 0 0)
    (by norm_num [Revnet.create]) (by norm_num [Revnet.create])
    (by norm_num [Revnet.create]) 1 5 (by norm_num)

/- ------------------------------------------------------------------ -/
/- The Simulator: traders, parameters, routing, and the daily loop.   -/
/- ------------------------------------------------------------------ -/

/-- Execution venue of a trade (`source` strings `"pool"` / `"revnet"`). -/
inductive Source where
  | pool
  | revnet
deriving DecidableEq

/-- A trader's purchase record (`Trader.recordPurchase`).  In the simulation a
trader is created atomically with its purchase, so the record is present. -/
structure Purchase where
  ethSpent : ℚ
  revnetTokensReceived : ℚ
  source : Source
  day : ℕ
deriving DecidableEq

/-- A trader's sale record (`Trader.recordSale`); the source is `none` when
neither venue executed the sale (JavaScript `undefined`). -/
structure Sale where
  revnetTokensSpent : ℚ
  ethReceived : ℚ
  source : Option Source
  day : ℕ
deriving DecidableEq

/-- A trader (`class Trader`): one purchase, at most one sale. -/
structure Trader where
  purchase : Purchase
  sale : Option Sale
deriving DecidableEq

/-- One entry of a daily snapshot's `dailyPurchases` list. -/
structure DailyPurchase where
  ethSpent : ℚ
  revnetTokensReceived : ℚ
  source : Source
deriving DecidableEq

/-- One entry of a daily snapshot's `dailySales` list. -/
structure DailySale where
  revnetTokensSpent : ℚ
  ethReceived : ℚ
  source : Option Source
deriving DecidableEq

/-- A daily snapshot, mirroring the record pushed onto `simulationResults`. -/
structure Snapshot where
  day : ℕ
  ethBalance : ℚ
  tokenSupply : ℚ
  priceCeiling : WithTop ℚ
  priceFloor : ℚ
  tokensSentToBoost : ℚ
  poolEthBalance : ℚ
  poolRevnetTokenBalance : ℚ
  poolRevnetTokenPrice : ℚ
  oneTokenReclaimAmount : ℚ
  hundredTokenReclaimAmountPerToken : ℚ
  fiveHundredTokenReclaimAmountPerToken : ℚ
  ethFeesAccumulated : ℚ
  revnetTokenFeesAccumulated : ℚ
  dailyPurchases : List DailyPurchase
  dailySales : List DailySale

/-- Revnet constructor parameters (`revnetParams`). -/
structure RevnetParams where
  priceCeilingIncreasePercentage : ℚ
  priceCeilingIncreaseFrequencyInDays : ℚ
  priceFloorTaxIntensity : ℚ
  premintAmount : ℚ
  boostPercent : ℚ
  boostDurationInDays : ℚ

/-- Pool constructor parameters (`poolParams`). -/
structure PoolParams where
  eth : ℚ
  revnetToken : ℚ
  dayDeployed : ℚ
  fee : ℚ

/-- Simulation parameters (`simParams`). -/
structure SimParams where
  daysToCalculate : ℕ
  randomnessSeed : ℕ
  dailyPurchasesLambda : ℚ
  purchaseAmountMean : ℚ
  purchaseAmountDeviation : ℚ
  revnetTokenLiquidityRatio : ℚ
  ethLiquidityRatio : ℚ
  saleProbability : ℚ
  minimumDaysHeld : ℚ

/-- The simulator state (`class Simulator`): one Revnet, one Pool, the
simulation parameters, the trader list, the snapshot list, and the day. -/
structure Simulator where
  revnet : Revnet
  pool : Pool
  daysToCalculate : ℕ
  randomnessSeed : ℕ
  dailyPurchasesLambda : ℚ
  purchaseAmountMean : ℚ
  purchaseAmountDeviation : ℚ
  revnetTokenLiquidityRatio : ℚ
  ethLiquidityRatio : ℚ
  saleProbability : ℚ
  minimumDaysHeld : ℚ
  traders : List Trader
  simulationResults : List Snapshot
  day : ℕ

/-- The `Simulator` constructor: build the Revnet and Pool, store the
parameters, and count a positive initial pool token balance as outstanding
token supply. -/
def mkSimulator (revnetParams : RevnetParams) (poolParams : PoolParams)
    (simParams : SimParams) : Simulator :=
  let revnet := Revnet.create
    revnetParams.priceCeilingIncreasePercentage
    revnetParams.priceCeilingIncreaseFrequencyInDays
    revnetParams.priceFloorTaxIntensity
    revnetParams.premintAmount
    revnetParams.boostPercent
    revnetParams.boostDurationInDays
  let pool := Pool.create poolParams.eth poolParams.revnetToken
    poolParams.dayDeployed poolParams.fee
  { revnet :=
      if 0 < poolParams.revnetToken then
        { revnet with tokenSupply := revnet.tokenSupply + poolParams.revnetToken }
      else revnet,
    pool := pool,
    daysToCalculate := simParams.daysToCalculate,
    randomnessSeed := simParams.randomnessSeed,
    dailyPurchasesLambda := simParams.dailyPurchasesLambda,
    purchaseAmountMean := simParams.purchaseAmountMean,
    purchaseAmountDeviation := simParams.purchaseAmountDeviation,
    revnetTokenLiquidityRatio := simParams.revnetTokenLiquidityRatio,
    ethLiquidityRatio := simParams.ethLiquidityRatio,
    saleProbability := simParams.saleProbability,
    minimumDaysHeld := simParams.minimumDaysHeld,
    traders := [],
    simulationResults := [],
    day := 0 }

namespace Simulator

/-- `purchaseRevnetTokens`: route a purchase of `ethSpent` to the pool when it
is deployed, solvent for the quote, and beats the Revnet's ceiling rate;
otherwise mint from the Revnet.  While the boost runs, pool-sourced tokens are
also skimmed by `boostPercent` into `tokensSentToBoost`.  Returns
`(revnetTokensReceived, source)` and the updated state. -/
def purchaseRevnetTokens (s : Simulator) (ethSpent : ℚ) : (ℚ × Source) × Simulator :=
  if s.pool.dayDeployed ≤ (s.day : ℚ) ∧
      s.pool.getRevnetTokenReturnPlusFee ethSpent < s.pool.revnetToken ∧
      s.revnet.getTokensCreatedPerEth s.day * ethSpent < s.pool.getRevnetTokenReturn ethSpent then
    let bought := s.pool.buyRevnetTokens ethSpent
    if (s.day : ℚ) < s.revnet.boostDurationInDays then
      let tokensToSendToBoost := bought.1 * s.revnet.boostPercent
      ((bought.1 - tokensToSendToBoost, Source.pool),
       { s with pool := bought.2,
                revnet := { s.revnet with
                  tokensSentToBoost := s.revnet.tokensSentToBoost + tokensToSendToBoost } })
    else
      ((bought.1, Source.pool), { s with pool := bought.2 })
  else
    let minted := s.revnet.createTokensAtCeiling ethSpent s.day
    ((minted.1, Source.revnet), { s with revnet := minted.2 })

/-- `sellRevnetTokens`: route a sale of `revnetTokensSpent` to the pool when it
is deployed, solvent for the quote, and beats the Revnet's reclaim amount;
otherwise destroy tokens at the Revnet's floor, but only when the reclaim
amount is strictly below the Revnet's ETH balance.  When neither venue
qualifies, nothing executes and zero ETH is received. -/
def sellRevnetTokens (s : Simulator) (revnetTokensSpent : ℚ) : (ℚ × Option Source) × Simulator :=
  if s.pool.dayDeployed ≤ (s.day : ℚ) ∧
      s.pool.getEthReturnPlusFee revnetTokensSpent < s.pool.eth ∧
      s.revnet.getEthReclaimAmount revnetTokensSpent < s.pool.getEthReturn revnetTokensSpent then
    let sold := s.pool.buyEth revnetTokensSpent
    ((sold.1, some Source.pool), { s with pool := sold.2 })
  else if s.revnet.getEthReclaimAmount revnetTokensSpent < s.revnet.ethBalance then
    let destroyed := s.revnet.destroyTokensAtFloor revnetTokensSpent
    ((destroyed.1, some Source.revnet), { s with revnet := destroyed.2 })
  else
    ((0, none), s)

end Simulator

/-- C7: when neither venue qualifies for a sale — the pool branch's condition
fails and the reclaim amount is not strictly below the Revnet's ETH balance —
`sellRevnetTokens` returns zero ETH and leaves the entire simulator state
(in particular the pool's reserves and the Revnet's `tokenSupply` and
`ethBalance`) unchanged. -/
theorem sell_neither_venue_noop (s : Simulator) (x : ℚ)
    (hpool : ¬(s.pool.dayDeployed ≤ (s.day : ℚ) ∧
      s.pool.getEthReturnPlusFee x < s.pool.eth ∧
      s.revnet.getEthReclaimAmount x < s.pool.getEthReturn x))
    (hrev : ¬(s.revnet.getEthReclaimAmount x < s.revnet.ethBalance)) :
    (s.sellRevnetTokens x).1.1 = 0 ∧
    (s.sellRevnetTokens x).2.pool = s.pool ∧
    (s.sellRevnetTokens x).2.revnet.tokenSupply = s.revnet.tokenSupply ∧
    (s.sellRevnetTokens x).2.revnet.ethBalance = s.revnet.ethBalance := by
  simp only [Simulator.sellRevnetTokens, if_neg hpool, if_neg hrev]
  exact ⟨trivial, trivial, trivial, trivial⟩

/-- Concrete simulator for the C7 witness: the pool is not yet deployed
(deployment day 100, current day 0) and the Revnet holds no ETH, so a sale of
1 token can be served by neither venue. -/
def simWitC7 : Simulator :=
  mkSimulator
    { priceCeilingIncreasePercentage := 0, priceCeilingIncreaseFrequencyInDays := 1,
      priceFloorTaxIntensity := 0, premintAmount := 1, boostPercent := 0,
      boostDurationInDays := 0 }
    { eth := 0, revnetToken := 0, dayDeployed := 100, fee := 0 }
    { daysToCalculate := 1, randomnessSeed := 0, dailyPurchasesLambda := 1,
      purchaseAmountMean := 0, purchaseAmountDeviation := 0,
      revnetTokenLiquidityRatio := 0, ethLiquidityRatio := 0,
      saleProbability := 1, minimumDaysHeld := 0 }

/-- C7 witness: on `simWitC7`, selling 1 token executes nothing. -/
theorem sell_neither_venue_noop_witness :
    (simWitC7.sellRevnetTokens 1).1.1 = 0 ∧
    (simWitC7.sellRevnetTokens 1).2.pool = simWitC7.pool ∧
    (simWitC7.sellRevnetTokens 1).2.revnet.tokenSupply = simWitC7.revnet.tokenSupply ∧
    (simWitC7.sellRevnetTokens 1).2.revnet.ethBalance = simWitC7.revnet.ethBalance :=
  sell_neither_venue_noop simWitC7 1
    (by norm_num [simWitC7, mkSimulator, Pool.create, Revnet.create,
      Pool.getEthReturnPlusFee, Pool.getEthReturn, Revnet.getEthReclaimAmount])
    (by norm_num [simWitC7, mkSimulator, Pool.create, Revnet.create,
      Revnet.getEthReclaimAmount])

/-- C10: when the pool parameters carry a positive initial Revnet token
balance, the constructed simulator's Revnet counts it as outstanding supply:
`tokenSupply = premintAmount + poolParams.revnetToken`. -/
theorem initial_supply_includes_pool_tokens (revnetParams : RevnetParams)
    (poolParams : PoolParams) (simParams : SimParams)
    (h : 0 < poolParams.revnetToken) :
    (mkSimulator revnetParams poolParams simParams).revnet.tokenSupply =
      revnetParams.premintAmount + poolParams.revnetToken := by
  simp only [mkSimulator, Revnet.create, if_pos h]

/-- C10 witness: premint 1 and initial pool token balance 5 give initial
supply 6. -/
theorem initial_supply_includes_pool_tokens_witness :
    (mkSimulator
      { priceCeilingIncreasePercentage := 0, priceCeilingIncreaseFrequencyInDays := 1,
        priceFloorTaxIntensity := 0, premintAmount := 1, boostPercent := 0,
        boostDurationInDays := 0 }
      { eth := 2, revnetToken := 5, dayDeployed := 0, fee := 0 }
      { daysToCalculate := 1, randomnessSeed := 0, dailyPurchasesLambda := 1,
        purchaseAmountMean := 0, purchaseAmountDeviation := 0,
        revnetTokenLiquidityRatio := 0, ethLiquidityRatio := 0,
        saleProbability := 1, minimumDaysHeld := 0 }).revnet.tokenSupply =
      (1 : ℚ) + 5 :=
  initial_supply_includes_pool_tokens _ _ _ (by norm_num)

/- ------------------------------------------------------------------ -/
/- Randomness: the LCG stream and the sampler abstraction.            -/
/- ------------------------------------------------------------------ -/

/-- One update of the linear congruential generator `newLCG`: the closure's
`currentSeed = (a * currentSeed + c) % m` with `a = 1664525`,
`c = 1013904223`, `m = 2^32`. -/
def lcgStep (currentSeed : ℕ) : ℕ :=
  (1664525 * currentSeed + 1013904223) % 2 ^ 32

/-- The uniform value in `[0,1)` returned by a call of the generator after
its seed update: `currentSeed / m`. -/
def lcgValue (currentSeed : ℕ) : ℚ :=
  (currentSeed : ℚ) / 2 ^ 32

/-- Modelled abstraction of the two transcendental samplers.  In the source,
`poissonRandomNumber(lambda, poissonRand)` (re-evaluated by the purchase
loop's condition on every iteration, so the day's purchase count is a
deterministic function of the Poisson stream's state) and
`logNormRandomNumber(mu, sigma, buyRand)` are deterministic functions of the
respective LCG states that use `Math.exp` / `Math.log` / `Math.cos`, which
have no exact rational counterpart.  Each is abstracted as a function from
the LCG state to the drawn value and the advanced state; the theorems below
hold for every such function, in particular for the source's samplers. -/
structure Samplers where
  purchaseCount : ℕ → ℕ × ℕ
  purchaseAmount : ℕ → ℚ × ℕ

namespace Simulator

/-- One purchase event of the daily loop: draw routing via
`purchaseRevnetTokens`, record the purchase on a fresh trader, feed a
`revnetTokenLiquidityRatio` cut of the received tokens into the pool once it
is deployed, and push the trader. -/
def purchaseStep (s : Simulator) (ethSpent : ℚ) : Simulator × DailyPurchase :=
  let res := s.purchaseRevnetTokens ethSpent
  let revnetTokensReceived := res.1.1
  let src := res.1.2
  let s1 := res.2
  let t : Trader :=
    { purchase := { ethSpent := ethSpent, revnetTokensReceived := revnetTokensReceived,
                    source := src, day := s1.day },
      sale := none }
  let s2 :=
    if s1.pool.dayDeployed ≤ (s1.day : ℚ) then
      { s1 with pool :=
          s1.pool.provideRevnetTokens (s1.revnetTokenLiquidityRatio * revnetTokensReceived) }
    else s1
  ({ s2 with traders := s2.traders ++ [t] },
   { ethSpent := ethSpent, revnetTokensReceived := revnetTokensReceived, source := src })

/-- Run the day's purchase events, threading the buy-amount stream state;
returns the updated simulator, the stream state, and the `dailyPurchases`
list in order. -/
def runPurchases (sam : Samplers) : ℕ → Simulator → ℕ → Simulator × ℕ × List DailyPurchase
  | 0, s, buySt => (s, buySt, [])
  | n + 1, s, buySt =>
    let draw := sam.purchaseAmount buySt
    let step := s.purchaseStep draw.1
    let rest := runPurchases sam n step.1 draw.2
    (rest.1, rest.2.1, step.2 :: rest.2.2)

/-- The body of a sale that fires: the trader sells the post-liquidity-skim
balance `revnetTokensReceived * (1 - revnetTokenLiquidityRatio)` through
`sellRevnetTokens`, records the sale, and a `ethLiquidityRatio` cut of the
proceeds is fed into the pool once it is deployed. -/
def applySale (s : Simulator) (t : Trader) : Trader × Simulator × DailySale :=
  let revnetTokensSpent := t.purchase.revnetTokensReceived * (1 - s.revnetTokenLiquidityRatio)
  let res := s.sellRevnetTokens revnetTokensSpent
  let ethReceived := res.1.1
  let src := res.1.2
  let s1 := res.2
  let sl : Sale :=
    { revnetTokensSpent := revnetTokensSpent, ethReceived := ethReceived,
      source := src, day := s1.day }
  let t' : Trader := { t with sale := some sl }
  let s2 :=
    if s1.pool.dayDeployed ≤ (s1.day : ℚ) then
      { s1 with pool := s1.pool.provideEth (s1.ethLiquidityRatio * ethReceived) }
    else s1
  (t', s2,
   { revnetTokensSpent := revnetTokensSpent, ethReceived := ethReceived, source := src })

/-- The daily sales pass's treatment of a single trader: skip traders who
already sold or have not held long enough; otherwise draw one Bernoulli trial
from the sale stream and on success execute `applySale`. -/
def saleStepTrader (s : Simulator) (sellSt : ℕ) (t : Trader) :
    Trader × Simulator × ℕ × Option DailySale :=
  if t.sale.isSome then (t, s, sellSt, none)
  else if (s.day : ℚ) < (t.purchase.day : ℚ) + s.minimumDaysHeld then (t, s, sellSt, none)
  else
    let sellSt1 := lcgStep sellSt
    if lcgValue sellSt1 < s.saleProbability then
      let res := s.applySale t
      (res.1, res.2.1, sellSt1, some res.2.2)
    else (t, s, sellSt1, none)

end Simulator

/-- The daily sales pass (`this.traders.forEach`): fold `saleStepTrader` over
the trader list in order, collecting the updated traders, the simulator, the
sale stream state, and the `dailySales` list. -/
def runSalesAux : List Trader → Simulator → ℕ → List Trader × Simulator × ℕ × List DailySale
  | [], s, sellSt => ([], s, sellSt, [])
  | t :: ts, s, sellSt =>
    let st := s.saleStepTrader sellSt t
    let rest := runSalesAux ts st.2.1 st.2.2.1
    (st.1 :: rest.1, rest.2.1, rest.2.2.1,
     match st.2.2.2 with
     | some d => d :: rest.2.2.2
     | none => rest.2.2.2)

namespace Simulator

/-- The record pushed onto `simulationResults` at the end of a day. -/
def mkSnapshot (s : Simulator) (dailyPurchases : List DailyPurchase)
    (dailySales : List DailySale) : Snapshot :=
  { day := s.day,
    ethBalance := s.revnet.ethBalance,
    tokenSupply := s.revnet.tokenSupply,
    priceCeiling := s.revnet.getPriceCeiling s.day,
    priceFloor := s.revnet.getEthReclaimAmount
      (if 1 < s.revnet.tokenSupply then 1 else s.revnet.tokenSupply),
    tokensSentToBoost := s.revnet.tokensSentToBoost,
    poolEthBalance := s.pool.eth,
    poolRevnetTokenBalance := s.pool.revnetToken,
    poolRevnetTokenPrice := s.pool.getMarginalPriceOfRevnetToken,
    oneTokenReclaimAmount := s.revnet.getEthReclaimAmount 1,
    hundredTokenReclaimAmountPerToken := s.revnet.getEthReclaimAmount 100 / 100,
    fiveHundredTokenReclaimAmountPerToken := s.revnet.getEthReclaimAmount 500 / 500,
    ethFeesAccumulated := s.pool.ethFeesAccumulated,
    revnetTokenFeesAccumulated := s.pool.revnetTokenFeesAccumulated,
    dailyPurchases := dailyPurchases,
    dailySales := dailySales }

/-- One iteration of the daily loop: purchases, sales, snapshot, day
increment.  Threads the three stream states. -/
def stepDay (sam : Samplers) (s : Simulator) (poisSt buySt sellSt : ℕ) :
    Simulator × ℕ × ℕ × ℕ :=
  let count := sam.purchaseCount poisSt
  let purchases := runPurchases sam count.1 s buySt
  let s1 := purchases.1
  let sales := runSalesAux s1.traders s1 sellSt
  let s2 := { sales.2.1 with traders := sales.1 }
  let snap := s2.mkSnapshot purchases.2.2 sales.2.2.2
  ({ s2 with simulationResults := s2.simulationResults ++ [snap], day := s2.day + 1 },
   count.2, purchases.2.1, sales.2.2.1)

/-- Run `stepDay` for the given number of remaining days. -/
def runDays (sam : Samplers) : ℕ → Simulator → ℕ → ℕ → ℕ → Simulator
  | 0, s, _, _, _ => s
  | k + 1, s, poisSt, buySt, sellSt =>
    let d := stepDay sam s poisSt buySt sellSt
    runDays sam k d.1 d.2.1 d.2.2.1 d.2.2.2

/-- `simulate`: initialise the three LCG streams from the randomness seed
(`poissonRand` from `seed + 2`, `buyRand` from `seed`, `sellRand` from
`seed + 1`) and run the daily loop until `daysToCalculate`. -/
def simulate (s : Simulator) (sam : Samplers) : Simulator :=
  runDays sam (s.daysToCalculate - s.day) s
    (s.randomnessSeed + 2) s.randomnessSeed (s.randomnessSeed + 1)

end Simulator

/-- C9: `simulate` is deterministic: two runs constructed from identical
Revnet, Pool, and simulation parameters (in particular the same
`randomnessSeed`) and the same samplers produce exactly equal snapshot
sequences and trader lists. -/
theorem simulate_deterministic (rp1 rp2 : RevnetParams) (pp1 pp2 : PoolParams)
    (sp1 sp2 : SimParams) (sam : Samplers)
    (h1 : rp1 = rp2) (h2 : pp1 = pp2) (h3 : sp1 = sp2) :
    ((mkSimulator rp1 pp1 sp1).simulate sam).simulationResults =
      ((mkSimulator rp2 pp2 sp2).simulate sam).simulationResults ∧
    ((mkSimulator rp1 pp1 sp1).simulate sam).traders =
      ((mkSimulator rp2 pp2 sp2).simulate sam).traders := by
  subst h1
  subst h2
  subst h3
  exact ⟨rfl, rfl⟩

/-- Shared small configuration for witnesses: Revnet parameters. -/
def rpWit : RevnetParams :=
  { priceCeilingIncreasePercentage := 0, priceCeilingIncreaseFrequencyInDays := 1,
    priceFloorTaxIntensity := 0, premintAmount := 1, boostPercent := 0,
    boostDurationInDays := 0 }

/-- Shared small configuration for witnesses: Pool parameters (the pool is
deployed only from day 100, so a one-day run never touches it). -/
def ppWit : PoolParams :=
  { eth := 0, revnetToken := 0, dayDeployed := 100, fee := 0 }

/-- Shared small configuration for witnesses: simulation parameters (one day,
certain sale, no holding period). -/
def spWit : SimParams :=
  { daysToCalculate := 1, randomnessSeed := 0, dailyPurchasesLambda := 1,
    purchaseAmountMean := 0, purchaseAmountDeviation := 0,
    revnetTokenLiquidityRatio := 0, ethLiquidityRatio := 0,
    saleProbability := 2, minimumDaysHeld := 0 }

/-- Shared concrete samplers for witnesses: one purchase per day of 1 ETH. -/
def samWit : Samplers :=
  { purchaseCount := fun st => (1, st), purchaseAmount := fun st => (1, st) }

/-- C9 witness: the determinism theorem applied at the shared witness
configuration. -/
theorem simulate_deterministic_witness :
    ((mkSimulator rpWit ppWit spWit).simulate samWit).simulationResults =
      ((mkSimulator rpWit ppWit spWit).simulate samWit).simulationResults ∧
    ((mkSimulator rpWit ppWit spWit).simulate samWit).traders =
      ((mkSimulator rpWit ppWit spWit).simulate samWit).traders :=
  simulate_deterministic rpWit rpWit ppWit ppWit spWit spWit samWit rfl rfl rfl

/- ------------------------------------------------------------------ -/
/- C8: the minimum holding period gates every recorded sale.          -/
/- ------------------------------------------------------------------ -/

/-- Every recorded sale in the list respects the minimum holding period `m`:
its day is at least the purchase day plus `m`. -/
def HoldOK (m : ℚ) (ts : List Trader) : Prop :=
  ∀ t ∈ ts, ∀ sl, t.sale = some sl → (t.purchase.day : ℚ) + m ≤ (sl.day : ℚ)

lemma purchaseRevnetTokens_const (s : Simulator) (a : ℚ) :
    (s.purchaseRevnetTokens a).2.day = s.day ∧
    (s.purchaseRevnetTokens a).2.minimumDaysHeld = s.minimumDaysHeld ∧
    (s.purchaseRevnetTokens a).2.traders = s.traders := by
  simp only [Simulator.purchaseRevnetTokens]
  split_ifs <;> exact ⟨rfl, rfl, rfl⟩

lemma sellRevnetTokens_const (s : Simulator) (x : ℚ) :
    (s.sellRevnetTokens x).2.day = s.day ∧
    (s.sellRevnetTokens x).2.minimumDaysHeld = s.minimumDaysHeld ∧
    (s.sellRevnetTokens x).2.traders = s.traders := by
  simp only [Simulator.sellRevnetTokens]
  split_ifs <;> exact ⟨rfl, rfl, rfl⟩

lemma purchaseStep_spec (s : Simulator) (a : ℚ) :
    ∃ t : Trader, t.sale = none ∧
      (s.purchaseStep a).1.traders = s.traders ++ [t] ∧
      (s.purchaseStep a).1.day = s.day ∧
      (s.purchaseStep a).1.minimumDaysHeld = s.minimumDaysHeld := by
  obtain ⟨hd, hm, ht⟩ := purchaseRevnetTokens_const s a
  simp only [Simulator.purchaseStep]
  refine ⟨⟨⟨a, (s.purchaseRevnetTokens a).1.1, (s.purchaseRevnetTokens a).1.2,
      (s.purchaseRevnetTokens a).2.day⟩, none⟩, rfl, ?_, ?_, ?_⟩
  all_goals split_ifs <;> simp [ht, hd, hm]

lemma applySale_spec (s : Simulator) (t : Trader) :
    (s.applySale t).2.1.day = s.day ∧
    (s.applySale t).2.1.minimumDaysHeld = s.minimumDaysHeld ∧
    (s.applySale t).1.purchase = t.purchase ∧
    ∃ sl, (s.applySale t).1.sale = some sl ∧ sl.day = s.day := by
  obtain ⟨hd, hm, -⟩ := sellRevnetTokens_const s
    (t.purchase.revnetTokensReceived * (1 - s.revnetTokenLiquidityRatio))
  simp only [Simulator.applySale]
  refine ⟨?_, ?_, ?_,
    ⟨⟨t.purchase.revnetTokensReceived * (1 - s.revnetTokenLiquidityRatio),
      (s.sellRevnetTokens (t.purchase.revnetTokensReceived *
        (1 - s.revnetTokenLiquidityRatio))).1.1,
      (s.sellRevnetTokens (t.purchase.revnetTokensReceived *
        (1 - s.revnetTokenLiquidityRatio))).1.2,
      (s.sellRevnetTokens (t.purchase.revnetTokensReceived *
        (1 - s.revnetTokenLiquidityRatio))).2.day⟩, rfl, hd⟩⟩
  · split_ifs <;> simp [hd]
  · split_ifs <;> simp [hm]
  · trivial

lemma saleStepTrader_spec (s : Simulator) (ss : ℕ) (t : Trader) :
    (s.saleStepTrader ss t).2.1.day = s.day ∧
    (s.saleStepTrader ss t).2.1.minimumDaysHeld = s.minimumDaysHeld ∧
    (s.saleStepTrader ss t).1.purchase = t.purchase ∧
    ∀ sl, (s.saleStepTrader ss t).1.sale = some sl →
      t.sale = some sl ∨
      (sl.day = s.day ∧ ¬((s.day : ℚ) < (t.purchase.day : ℚ) + s.minimumDaysHeld)) := by
  simp only [Simulator.saleStepTrader]
  split_ifs with h1 h2 h3
  · exact ⟨rfl, rfl, rfl, fun sl hsl => Or.inl hsl⟩
  · exact ⟨rfl, rfl, rfl, fun sl hsl => Or.inl hsl⟩
  · obtain ⟨hd, hm, hp, sl0, hsl0, hday⟩ := applySale_spec s t
    refine ⟨hd, hm, hp, fun sl hsl => Or.inr ⟨?_, h2⟩⟩
    rw [hsl0] at hsl
    cases hsl
    exact hday
  · exact ⟨rfl, rfl, rfl, fun sl hsl => Or.inl hsl⟩

lemma runSalesAux_spec (m : ℚ) (ts : List Trader) : ∀ (s : Simulator) (ss : ℕ),
    s.minimumDaysHeld = m →
    (runSalesAux ts s ss).2.1.day = s.day ∧
    (runSalesAux ts s ss).2.1.minimumDaysHeld = m ∧
    (HoldOK m ts → HoldOK m (runSalesAux ts s ss).1) := by
  induction ts with
  | nil =>
    intro s ss hsm
    exact ⟨rfl, hsm, fun _ t ht => absurd ht (List.not_mem_nil t)⟩
  | cons t ts ih =>
    intro s ss hsm
    obtain ⟨hd, hm, hp, hsale⟩ := saleStepTrader_spec s ss t
    obtain ⟨ihd, ihm, ihprop⟩ :=
      ih (s.saleStepTrader ss t).2.1 (s.saleStepTrader ss t).2.2.1 (by rw [hm, hsm])
    simp only [runSalesAux]
    refine ⟨by rw [ihd, hd], ihm, ?_⟩
    intro hin t' ht' sl hsl
    rcases List.mem_cons.mp ht' with rfl | ht'
    · rcases hsale sl hsl with h | ⟨hday, hnl⟩
      · rw [hp]
        exact hin t (List.mem_cons_self t ts) sl h
      · rw [hp, hday]
        rw [hsm] at hnl
        exact not_lt.mp hnl
    · exact ihprop (fun u hu sl' hsl' => hin u (List.mem_cons_of_mem t hu) sl' hsl') t' ht' sl hsl

lemma runPurchases_spec (sam : Samplers) (m : ℚ) (n : ℕ) : ∀ (s : Simulator) (bs : ℕ),
    s.minimumDaysHeld = m →
    (Simulator.runPurchases sam n s bs).1.day = s.day ∧
    (Simulator.runPurchases sam n s bs).1.minimumDaysHeld = m ∧
    (HoldOK m s.traders → HoldOK m (Simulator.runPurchases sam n s bs).1.traders) := by
  induction n with
  | zero =>
    intro s bs hsm
    exact ⟨rfl, hsm, fun h => h⟩
  | succ n ih =>
    intro s bs hsm
    obtain ⟨t0, ht0, htr, hd, hm⟩ := purchaseStep_spec s (sam.purchaseAmount bs).1
    obtain ⟨ihd, ihm, ihprop⟩ :=
      ih (s.purchaseStep (sam.purchaseAmount bs).1).1 (sam.purchaseAmount bs).2 (by rw [hm, hsm])
    simp only [Simulator.runPurchases]
    refine ⟨by rw [ihd, hd], ihm, ?_⟩
    intro hin
    refine ihprop ?_
    rw [htr]
    intro u hu sl hsl
    rcases List.mem_append.mp hu with hu | hu
    · exact hin u hu sl hsl
    · rw [List.mem_singleton.mp hu] at hsl
      rw [ht0] at hsl
      cases hsl

lemma stepDay_spec (sam : Samplers) (m : ℚ) (s : Simulator) (ps bs ss : ℕ)
    (hsm : s.minimumDaysHeld = m) :
    (s.stepDay sam ps bs ss).1.minimumDaysHeld = m ∧
    (HoldOK m s.traders → HoldOK m (s.stepDay sam ps bs ss).1.traders) := by
  obtain ⟨pd, pm, pprop⟩ :=
    runPurchases_spec sam m (sam.purchaseCount ps).1 s bs hsm
  obtain ⟨sd, sm, sprop⟩ :=
    runSalesAux_spec m (Simulator.runPurchases sam (sam.purchaseCount ps).1 s bs).1.traders
      (Simulator.runPurchases sam (sam.purchaseCount ps).1 s bs).1
      ss pm
  simp only [Simulator.stepDay]
  exact ⟨by simp [sm], fun h => by simpa using sprop (pprop h)⟩

lemma runDays_spec (sam : Samplers) (m : ℚ) (k : ℕ) : ∀ (s : Simulator) (ps bs ss : ℕ),
    s.minimumDaysHeld = m →
    (Simulator.runDays sam k s ps bs ss).minimumDaysHeld = m ∧
    (HoldOK m s.traders → HoldOK m (Simulator.runDays sam k s ps bs ss).traders) := by
  induction k with
  | zero =>
    intro s ps bs ss hsm
    exact ⟨hsm, fun h => h⟩
  | succ k ih =>
    intro s ps bs ss hsm
    obtain ⟨hm, hprop⟩ := stepDay_spec sam m s ps bs ss hsm
    obtain ⟨ihm, ihprop⟩ :=
      ih (s.stepDay sam ps bs ss).1 (s.stepDay sam ps bs ss).2.1
        (s.stepDay sam ps bs ss).2.2.1 (s.stepDay sam ps bs ss).2.2.2 hm
    simp only [Simulator.runDays]
    exact ⟨ihm, fun h => ihprop (hprop h)⟩

/-- C8: for every configuration, samplers, and trader produced by a full
simulation run, a recorded sale never happens on a day earlier than the
trader's purchase day plus `minimumDaysHeld`, regardless of the
sale-probability draws (the Bernoulli guard is quantified away inside the
embedded sale pass). -/
theorem sale_respects_minimum_holding (rp : RevnetParams) (pp : PoolParams)
    (sp : SimParams) (sam : Samplers) (t : Trader)
    (ht : t ∈ ((mkSimulator rp pp sp).simulate sam).traders)
    (sl : Sale) (hsl : t.sale = some sl) :
    (t.purchase.day : ℚ) + sp.minimumDaysHeld ≤ (sl.day : ℚ) := by
  obtain ⟨-, hprop⟩ :=
    runDays_spec sam sp.minimumDaysHeld
      ((mkSimulator rp pp sp).daysToCalculate - (mkSimulator rp pp sp).day)
      (mkSimulator rp pp sp)
      ((mkSimulator rp pp sp).randomnessSeed + 2)
      (mkSimulator rp pp sp).randomnessSeed
      ((mkSimulator rp pp sp).randomnessSeed + 1)
      rfl
  have hinit : HoldOK sp.minimumDaysHeld (mkSimulator rp pp sp).traders := by
    intro u hu
    simp [mkSimulator] at hu
  exact hprop hinit t ht sl hsl

/-- The trader produced by the one-day witness run: buys 1 ETH worth (1 token)
from the Revnet on day 0 and sells the same day (no holding period). -/
def traderWit : Trader :=
  ⟨⟨1, 1, Source.revnet, 0⟩, some ⟨1, 1/2, some Source.revnet, 0⟩⟩

/-- The sale record of `traderWit`. -/
def saleWit : Sale := ⟨1, 1/2, some Source.revnet, 0⟩

lemma simulate_wit_traders :
    ((mkSimulator rpWit ppWit spWit).simulate samWit).traders = [traderWit] := by
  norm_num [mkSimulator, Simulator.simulate, Simulator.runDays, Simulator.stepDay,
    Simulator.runPurchases, Simulator.purchaseStep, Simulator.purchaseRevnetTokens,
    runSalesAux, Simulator.saleStepTrader, Simulator.applySale, Simulator.sellRevnetTokens,
    Revnet.createTokensAtCeiling, Revnet.destroyTokensAtFloor, Revnet.getEthReclaimAmount,
    Revnet.getTokensCreatedPerEth, Revnet.getPriceCeiling, jsRecip,
    Pool.getRevnetTokenReturn, Pool.getRevnetTokenReturnPlusFee,
    Pool.getEthReturn, Pool.getEthReturnPlusFee, Pool.buyEth, Pool.buyRevnetTokens,
    Pool.provideEth, Pool.provideRevnetTokens, Pool.create, Revnet.create,
    Pool.getMarginalPriceOfRevnetToken, Simulator.mkSnapshot,
    rpWit, ppWit, spWit, samWit, traderWit, lcgStep, lcgValue]

/-- C8 witness: in the one-day witness run, the produced trader's same-day
sale satisfies the (zero) minimum holding period. -/
theorem sale_respects_minimum_holding_witness :
    (traderWit.purchase.day : ℚ) + spWit.minimumDaysHeld ≤ (saleWit.day : ℚ) :=
  sale_respects_minimum_holding rpWit ppWit spWit samWit traderWit
    (by rw [simulate_wit_traders]; exact List.mem_singleton.mpr rfl)
    saleWit rfl

/- ------------------------------------------------------------------ -/
/- C1: tokenSupply >= tokensSentToBoost on every reachable state.     -/
/- ------------------------------------------------------------------ -/

/-- The tokens a trader still holds for a future sale: the
post-liquidity-skim balance `revnetTokensReceived * (1 - ratio)` while no
sale is recorded, zero afterwards (this is exactly the amount the sale pass
would sell). -/
def pendingTokens (ratio : ℚ) (t : Trader) : ℚ :=
  match t.sale with
  | none => t.purchase.revnetTokensReceived * (1 - ratio)
  | some _ => 0

/-- Total pending tokens over a trader list. -/
def pendingSum (ratio : ℚ) (ts : List Trader) : ℚ :=
  (ts.map (pendingTokens ratio)).sum

lemma pendingSum_nil (ratio : ℚ) : pendingSum ratio [] = 0 := rfl

lemma pendingSum_append_single (ratio : ℚ) (ts : List Trader) (t : Trader) :
    pendingSum ratio (ts ++ [t]) = pendingSum ratio ts + pendingTokens ratio t := by
  simp [pendingSum]

lemma pendingSum_nonneg (ratio : ℚ) (ts : List Trader)
    (h : ∀ t ∈ ts, 0 ≤ pendingTokens ratio t) : 0 ≤ pendingSum ratio ts := by
  refine List.sum_nonneg ?_
  intro q hq
  obtain ⟨t, ht, rfl⟩ := List.mem_map.mp hq
  exact h t ht

lemma pendingSum_set (ratio : ℚ) (ts : List Trader) (i : ℕ) (h : i < ts.length)
    (t' : Trader) :
    pendingSum ratio (ts.set i t') =
      pendingSum ratio ts - pendingTokens ratio (ts.get ⟨i, h⟩) + pendingTokens ratio t' := by
  induction ts generalizing i with
  | nil => exact absurd h (Nat.not_lt_zero i)
  | cons a ts ih =>
    cases i with
    | zero =>
      simp [pendingSum]
      ring
    | succ i =>
      have h' : i < ts.length := Nat.lt_of_succ_lt_succ h
      have hih := ih i h'
      simp only [pendingSum, List.map_cons, List.sum_cons] at hih ⊢
      rw [List.set_cons_succ]
      simp only [List.map_cons, List.sum_cons]
      rw [hih, show (a :: ts).get ⟨i + 1, h⟩ = ts.get ⟨i, h'⟩ from rfl]
      ring

/-- The immutable configuration carried by a simulator state: the fields that
no daily-loop operation ever writes. -/
def cfgOf (s : Simulator) : ℚ × ℚ × ℚ × ℚ × ℚ × ℚ :=
  (s.revnet.priceCeilingIncreasePercentage, s.revnet.priceFloorTaxIntensity,
   s.revnet.boostPercent, s.pool.fee, s.revnetTokenLiquidityRatio, s.ethLiquidityRatio)

/-- The documented parameter ranges (source constructor doc comments):
percentages and ratios lie in `[0,1]`, the ETH liquidity feed ratio is
nonnegative. -/
structure ParamsOK (s : Simulator) : Prop where
  pct0 : 0 ≤ s.revnet.priceCeilingIncreasePercentage
  pct1 : s.revnet.priceCeilingIncreasePercentage ≤ 1
  tax0 : 0 ≤ s.revnet.priceFloorTaxIntensity
  tax1 : s.revnet.priceFloorTaxIntensity ≤ 1
  bp0 : 0 ≤ s.revnet.boostPercent
  bp1 : s.revnet.boostPercent ≤ 1
  fee0 : 0 ≤ s.pool.fee
  fee1 : s.pool.fee ≤ 1
  tr0 : 0 ≤ s.revnetTokenLiquidityRatio
  tr1 : s.revnetTokenLiquidityRatio ≤ 1
  er0 : 0 ≤ s.ethLiquidityRatio

/-- The inductive invariant: every balance is nonnegative, every trader's
pending tokens are nonnegative, and the boost allocation plus the pool's
token reserve plus all pending trader tokens never exceed the token supply
(token conservation: fees and unfulfilled sales only create slack). -/
structure SimInv (s : Simulator) : Prop where
  boost0 : 0 ≤ s.revnet.tokensSentToBoost
  poolTok0 : 0 ≤ s.pool.revnetToken
  poolEth0 : 0 ≤ s.pool.eth
  ethBal0 : 0 ≤ s.revnet.ethBalance
  pending0 : ∀ t ∈ s.traders, 0 ≤ pendingTokens s.revnetTokenLiquidityRatio t
  conserve : s.revnet.tokensSentToBoost + s.pool.revnetToken +
      pendingSum s.revnetTokenLiquidityRatio s.traders ≤ s.revnet.tokenSupply

/-- One state transition of a simulation run, quantifying away the random
draws: a purchase event with a nonnegative ETH amount (the log-normal sampler
only produces positive values), a sale event for an eligible trader (no
recorded sale, holding period met — the trader whose Bernoulli trial passed),
or a day advance.  Liquidity feeds happen inside the purchase and sale events,
exactly as in the source's daily loop; snapshot recording does not touch the
economic state. -/
inductive SimStep : Simulator → Simulator → Prop where
  | purchase (s : Simulator) (a : ℚ) (ha : 0 ≤ a) :
      SimStep s (s.purchaseStep a).1
  | sale (s : Simulator) (i : ℕ) (h : i < s.traders.length)
      (hnone : (s.traders.get ⟨i, h⟩).sale = none)
      (hheld : ¬((s.day : ℚ) <
        ((s.traders.get ⟨i, h⟩).purchase.day : ℚ) + s.minimumDaysHeld)) :
      SimStep s
        { (s.applySale (s.traders.get ⟨i, h⟩)).2.1 with
            traders := s.traders.set i (s.applySale (s.traders.get ⟨i, h⟩)).1 }
  | advance (s : Simulator) :
      SimStep s { s with day := s.day + 1 }

lemma purchaseStep_cfg (s : Simulator) (a : ℚ) : cfgOf (s.purchaseStep a).1 = cfgOf s := by
  simp only [cfgOf, Simulator.purchaseStep, Simulator.purchaseRevnetTokens,
    Pool.buyRevnetTokens, Pool.provideRevnetTokens, Revnet.createTokensAtCeiling]
  split_ifs <;> rfl

lemma applySale_cfg (s : Simulator) (t : Trader) : cfgOf (s.applySale t).2.1 = cfgOf s := by
  simp only [cfgOf, Simulator.applySale, Simulator.sellRevnetTokens,
    Pool.buyEth, Pool.provideEth, Revnet.destroyTokensAtFloor]
  split_ifs <;> rfl

lemma paramsOK_of_cfg {s s' : Simulator} (h : cfgOf s' = cfgOf s) (hp : ParamsOK s) :
    ParamsOK s' := by
  simp only [cfgOf, Prod.mk.injEq] at h
  obtain ⟨h1, h2, h3, h4, h5, h6⟩ := h
  exact ⟨h1.symm ▸ hp.pct0, h1.symm ▸ hp.pct1, h2.symm ▸ hp.tax0, h2.symm ▸ hp.tax1,
    h3.symm ▸ hp.bp0, h3.symm ▸ hp.bp1, h4.symm ▸ hp.fee0, h4.symm ▸ hp.fee1,
    h5.symm ▸ hp.tr0, h5.symm ▸ hp.tr1, h6.symm ▸ hp.er0⟩

lemma getTokensCreatedPerEth_nonneg (s : Simulator) (hp : ParamsOK s) :
    0 ≤ s.revnet.getTokensCreatedPerEth s.day := by
  exact pow_nonneg (by linarith [hp.pct1]) _

lemma purchaseRevnetTokens_inv (s : Simulator) (a : ℚ)
    (hp : ParamsOK s) (hi : SimInv s) (ha : 0 ≤ a) :
    0 ≤ (s.purchaseRevnetTokens a).1.1 ∧
    0 ≤ (s.purchaseRevnetTokens a).2.revnet.tokensSentToBoost ∧
    0 ≤ (s.purchaseRevnetTokens a).2.pool.revnetToken ∧
    0 ≤ (s.purchaseRevnetTokens a).2.pool.eth ∧
    0 ≤ (s.purchaseRevnetTokens a).2.revnet.ethBalance ∧
    (s.purchaseRevnetTokens a).2.revnet.tokensSentToBoost +
      (s.purchaseRevnetTokens a).2.pool.revnetToken +
      pendingSum s.revnetTokenLiquidityRatio s.traders +
      (s.purchaseRevnetTokens a).1.1 ≤
      (s.purchaseRevnetTokens a).2.revnet.tokenSupply := by
  have hperEth := getTokensCreatedPerEth_nonneg s hp
  have hq1 : 0 ≤ s.pool.eth * s.pool.revnetToken / (s.pool.eth + a) :=
    cp_div_nonneg hi.poolEth0 hi.poolTok0 ha
  have hq2 : s.pool.eth * s.pool.revnetToken / (s.pool.eth + a) ≤ s.pool.revnetToken :=
    cp_div_le hi.poolEth0 hi.poolTok0 ha
  have hx : 0 ≤ s.pool.revnetToken - s.pool.eth * s.pool.revnetToken / (s.pool.eth + a) :=
    sub_nonneg.mpr hq2
  have hxf : 0 ≤ (s.pool.revnetToken - s.pool.eth * s.pool.revnetToken / (s.pool.eth + a)) *
      (1 - s.pool.fee) := mul_nonneg hx (by linarith [hp.fee1])
  have hxfb : 0 ≤ (s.pool.revnetToken - s.pool.eth * s.pool.revnetToken / (s.pool.eth + a)) *
      (1 - s.pool.fee) * (1 - s.revnet.boostPercent) := mul_nonneg hxf (by linarith [hp.bp1])
  have hqf : 0 ≤ (s.pool.revnetToken - s.pool.eth * s.pool.revnetToken / (s.pool.eth + a)) *
      s.pool.fee := mul_nonneg hx hp.fee0
  have hxfbp : 0 ≤ (s.pool.revnetToken - s.pool.eth * s.pool.revnetToken / (s.pool.eth + a)) *
      (1 - s.pool.fee) * s.revnet.boostPercent := mul_nonneg hxf hp.bp0
  have hT : 0 ≤ a * s.revnet.getTokensCreatedPerEth s.day := mul_nonneg ha hperEth
  have hTb : 0 ≤ a * s.revnet.getTokensCreatedPerEth s.day * (1 - s.revnet.boostPercent) :=
    mul_nonneg hT (by linarith [hp.bp1])
  have hTbp : 0 ≤ a * s.revnet.getTokensCreatedPerEth s.day * s.revnet.boostPercent :=
    mul_nonneg hT hp.bp0
  simp only [Simulator.purchaseRevnetTokens, Pool.buyRevnetTokens,
    Revnet.createTokensAtCeiling]
  split_ifs with h1 h2 h3
  · refine ⟨?_, ?_, ?_, ?_, ?_, ?_⟩ <;> dsimp only
    · nlinarith [hxfb]
    · nlinarith [hxfbp, hi.boost0]
    · exact hq1
    · exact add_nonneg hi.poolEth0 ha
    · exact hi.ethBal0
    · nlinarith [hi.conserve, hqf]
  · refine ⟨?_, ?_, ?_, ?_, ?_, ?_⟩ <;> dsimp only
    · nlinarith [hxf]
    · exact hi.boost0
    · exact hq1
    · exact add_nonneg hi.poolEth0 ha
    · exact hi.ethBal0
    · nlinarith [hi.conserve, hqf]
  · refine ⟨?_, ?_, ?_, ?_, ?_, ?_⟩ <;> dsimp only
    · nlinarith [hTb]
    · nlinarith [hTbp, hi.boost0]
    · exact hi.poolTok0
    · exact hi.poolEth0
    · exact add_nonneg hi.ethBal0 ha
    · nlinarith [hi.conserve]
  · refine ⟨?_, ?_, ?_, ?_, ?_, ?_⟩ <;> dsimp only
    · exact hT
    · exact hi.boost0
    · exact hi.poolTok0
    · exact hi.poolEth0
    · exact add_nonneg hi.ethBal0 ha
    · nlinarith [hi.conserve]

lemma purchaseRevnetTokens_cfg (s : Simulator) (a : ℚ) :
    cfgOf (s.purchaseRevnetTokens a).2 = cfgOf s := by
  simp only [cfgOf, Simulator.purchaseRevnetTokens, Pool.buyRevnetTokens,
    Revnet.createTokensAtCeiling]
  split_ifs <;> rfl

lemma purchaseStep_inv (s : Simulator) (a : ℚ)
    (hp : ParamsOK s) (hi : SimInv s) (ha : 0 ≤ a) :
    SimInv (s.purchaseStep a).1 := by
  obtain ⟨hrt, hboost, hpoolTok, hpoolEth, hethBal, hcons⟩ :=
    purchaseRevnetTokens_inv s a hp hi ha
  obtain ⟨hd, hm, htr⟩ := purchaseRevnetTokens_const s a
  have hcfg := purchaseRevnetTokens_cfg s a
  simp only [cfgOf, Prod.mk.injEq] at hcfg
  obtain ⟨-, -, -, -, hratio, -⟩ := hcfg
  have hpend : ∀ t' : Trader, t'.sale = none →
      pendingTokens s.revnetTokenLiquidityRatio t' =
        t'.purchase.revnetTokensReceived * (1 - s.revnetTokenLiquidityRatio) := by
    intro t' hnone
    simp [pendingTokens, hnone]
  simp only [Simulator.purchaseStep]
  split_ifs with hfeed
  · refine ⟨?_, ?_, ?_, ?_, ?_, ?_⟩ <;> dsimp only [Pool.provideRevnetTokens]
    · exact hboost
    · exact add_nonneg hpoolTok (by rw [hratio]; exact mul_nonneg hp.tr0 hrt)
    · exact hpoolEth
    · exact hethBal
    · intro t ht
      rw [htr] at ht
      rw [hratio]
      rcases List.mem_append.mp ht with ht | ht
      · exact hi.pending0 t ht
      · rw [List.mem_singleton.mp ht, hpend _ rfl]
        exact mul_nonneg hrt (by linarith [hp.tr1])
    · rw [hratio, htr, pendingSum_append_single, hpend _ rfl]
      dsimp only
      nlinarith [hcons]
  · refine ⟨?_, ?_, ?_, ?_, ?_, ?_⟩ <;> dsimp only
    · exact hboost
    · exact hpoolTok
    · exact hpoolEth
    · exact hethBal
    · intro t ht
      rw [htr] at ht
      rw [hratio]
      rcases List.mem_append.mp ht with ht | ht
      · exact hi.pending0 t ht
      · rw [List.mem_singleton.mp ht, hpend _ rfl]
        exact mul_nonneg hrt (by linarith [hp.tr1])
    · rw [hratio, htr, pendingSum_append_single, hpend _ rfl]
      dsimp only
      nlinarith [hcons, mul_nonneg hp.tr0 hrt]

lemma reclaimAmount_nonneg (r : Revnet) (x : ℚ) (hE : 0 ≤ r.ethBalance)
    (hS : 0 ≤ r.tokenSupply) (hx : 0 ≤ x)
    (h0 : 0 ≤ r.priceFloorTaxIntensity) (h1 : r.priceFloorTaxIntensity ≤ 1) :
    0 ≤ r.getEthReclaimAmount x := by
  simp only [Revnet.getEthReclaimAmount]
  have hr : 0 ≤ x / r.tokenSupply := div_nonneg hx hS
  have hterm : 0 ≤ x / r.tokenSupply * r.priceFloorTaxIntensity + 1 -
      r.priceFloorTaxIntensity := by
    nlinarith [mul_nonneg hr h0]
  exact mul_nonneg (mul_nonneg hE hr) hterm

lemma saleStep_inv (s : Simulator) (i : ℕ) (h : i < s.traders.length)
    (hp : ParamsOK s) (hi : SimInv s)
    (hnone : (s.traders.get ⟨i, h⟩).sale = none) :
    SimInv { (s.applySale (s.traders.get ⟨i, h⟩)).2.1 with
        traders := s.traders.set i (s.applySale (s.traders.get ⟨i, h⟩)).1 } := by
  have htmem : s.traders.get ⟨i, h⟩ ∈ s.traders := s.traders.get_mem i h
  have hpendt : pendingTokens s.revnetTokenLiquidityRatio (s.traders.get ⟨i, h⟩) =
      (s.traders.get ⟨i, h⟩).purchase.revnetTokensReceived *
        (1 - s.revnetTokenLiquidityRatio) := by
    simp only [pendingTokens, hnone]
  have hx : 0 ≤ (s.traders.get ⟨i, h⟩).purchase.revnetTokensReceived *
      (1 - s.revnetTokenLiquidityRatio) := by
    have h0 := hi.pending0 _ htmem
    rwa [hpendt] at h0
  have hsum : 0 ≤ pendingSum s.revnetTokenLiquidityRatio s.traders :=
    pendingSum_nonneg _ _ hi.pending0
  have hS : 0 ≤ s.revnet.tokenSupply := by
    linarith [hi.conserve, hi.boost0, hi.poolTok0]
  have hrec : 0 ≤ s.revnet.getEthReclaimAmount
      ((s.traders.get ⟨i, h⟩).purchase.revnetTokensReceived *
        (1 - s.revnetTokenLiquidityRatio)) :=
    reclaimAmount_nonneg _ _ hi.ethBal0 hS hx hp.tax0 hp.tax1
  have hq1 : 0 ≤ s.pool.eth * s.pool.revnetToken /
      (s.pool.revnetToken + (s.traders.get ⟨i, h⟩).purchase.revnetTokensReceived *
        (1 - s.revnetTokenLiquidityRatio)) :=
    div_nonneg (mul_nonneg hi.poolEth0 hi.poolTok0) (add_nonneg hi.poolTok0 hx)
  have hq2 : s.pool.eth * s.pool.revnetToken /
      (s.pool.revnetToken + (s.traders.get ⟨i, h⟩).purchase.revnetTokensReceived *
        (1 - s.revnetTokenLiquidityRatio)) ≤ s.pool.eth := by
    rw [mul_comm]
    exact cp_div_le hi.poolTok0 hi.poolEth0 hx
  have hethRec : 0 ≤ (s.pool.eth - s.pool.eth * s.pool.revnetToken /
      (s.pool.revnetToken + (s.traders.get ⟨i, h⟩).purchase.revnetTokensReceived *
        (1 - s.revnetTokenLiquidityRatio))) * (1 - s.pool.fee) :=
    mul_nonneg (sub_nonneg.mpr hq2) (by linarith [hp.fee1])
  simp only [Simulator.applySale, Simulator.sellRevnetTokens, Pool.buyEth,
    Revnet.destroyTokensAtFloor, Pool.provideEth]
  split_ifs with h1 h2 h3 h4 h5
  · refine ⟨?_, ?_, ?_, ?_, ?_, ?_⟩ <;> dsimp only
    · exact hi.boost0
    · exact add_nonneg hi.poolTok0 hx
    · exact add_nonneg hq1 (mul_nonneg hp.er0 (by nlinarith [hethRec]))
    · exact hi.ethBal0
    · intro u hu
      rcases List.mem_or_eq_of_mem_set hu with hu | rfl
      · exact hi.pending0 u hu
      · simp [pendingTokens]
    · rw [pendingSum_set _ _ _ h, hpendt]
      simp only [pendingTokens]
      linarith [hi.conserve]
  · refine ⟨?_, ?_, ?_, ?_, ?_, ?_⟩ <;> dsimp only
    · exact hi.boost0
    · exact add_nonneg hi.poolTok0 hx
    · exact hq1
    · exact hi.ethBal0
    · intro u hu
      rcases List.mem_or_eq_of_mem_set hu with hu | rfl
      · exact hi.pending0 u hu
      · simp [pendingTokens]
    · rw [pendingSum_set _ _ _ h, hpendt]
      simp only [pendingTokens]
      linarith [hi.conserve]
  · refine ⟨?_, ?_, ?_, ?_, ?_, ?_⟩ <;> dsimp only
    · exact hi.boost0
    · exact hi.poolTok0
    · exact add_nonneg hi.poolEth0 (mul_nonneg hp.er0 hrec)
    · linarith [h3]
    · intro u hu
      rcases List.mem_or_eq_of_mem_set hu with hu | rfl
      · exact hi.pending0 u hu
      · simp [pendingTokens]
    · rw [pendingSum_set _ _ _ h, hpendt]
      simp only [pendingTokens]
      linarith [hi.conserve]
  · refine ⟨?_, ?_, ?_, ?_, ?_, ?_⟩ <;> dsimp only
    · exact hi.boost0
    · exact hi.poolTok0
    · exact hi.poolEth0
    · linarith [h3]
    · intro u hu
      rcases List.mem_or_eq_of_mem_set hu with hu | rfl
      · exact hi.pending0 u hu
      · simp [pendingTokens]
    · rw [pendingSum_set _ _ _ h, hpendt]
      simp only [pendingTokens]
      linarith [hi.conserve]
  · refine ⟨?_, ?_, ?_, ?_, ?_, ?_⟩ <;> dsimp only
    · exact hi.boost0
    · exact hi.poolTok0
    · simpa using hi.poolEth0
    · exact hi.ethBal0
    · intro u hu
      rcases List.mem_or_eq_of_mem_set hu with hu | rfl
      · exact hi.pending0 u hu
      · simp [pendingTokens]
    · rw [pendingSum_set _ _ _ h, hpendt]
      simp only [pendingTokens]
      linarith [hi.conserve, hx]
  · refine ⟨?_, ?_, ?_, ?_, ?_, ?_⟩ <;> dsimp only
    · exact hi.boost0
    · exact hi.poolTok0
    · exact hi.poolEth0
    · exact hi.ethBal0
    · intro u hu
      rcases List.mem_or_eq_of_mem_set hu with hu | rfl
      · exact hi.pending0 u hu
      · simp [pendingTokens]
    · rw [pendingSum_set _ _ _ h, hpendt]
      simp only [pendingTokens]
      linarith [hi.conserve, hx]

lemma simStep_preserve {b c : Simulator} (hstep : SimStep b c)
    (hp : ParamsOK b) (hi : SimInv b) : ParamsOK c ∧ SimInv c := by
  cases hstep with
  | purchase a ha =>
    exact ⟨paramsOK_of_cfg (purchaseStep_cfg b a) hp, purchaseStep_inv b a hp hi ha⟩
  | sale i h hnone hheld =>
    exact ⟨paramsOK_of_cfg (applySale_cfg b (b.traders.get ⟨i, h⟩)) hp,
      saleStep_inv b i h hp hi hnone⟩
  | advance =>
    exact ⟨⟨hp.pct0, hp.pct1, hp.tax0, hp.tax1, hp.bp0, hp.bp1, hp.fee0, hp.fee1,
        hp.tr0, hp.tr1, hp.er0⟩,
      ⟨hi.boost0, hi.poolTok0, hi.poolEth0, hi.ethBal0, hi.pending0, hi.conserve⟩⟩

lemma mkSimulator_paramsOK (rp : RevnetParams) (pp : PoolParams) (sp : SimParams)
    (hpct0 : 0 ≤ rp.priceCeilingIncreasePercentage)
    (hpct1 : rp.priceCeilingIncreasePercentage ≤ 1)
    (htax0 : 0 ≤ rp.priceFloorTaxIntensity) (htax1 : rp.priceFloorTaxIntensity ≤ 1)
    (hbp0 : 0 ≤ rp.boostPercent) (hbp1 : rp.boostPercent ≤ 1)
    (hfee0 : 0 ≤ pp.fee) (hfee1 : pp.fee ≤ 1)
    (htr0 : 0 ≤ sp.revnetTokenLiquidityRatio) (htr1 : sp.revnetTokenLiquidityRatio ≤ 1)
    (her0 : 0 ≤ sp.ethLiquidityRatio) :
    ParamsOK (mkSimulator rp pp sp) := by
  refine ⟨?_, ?_, ?_, ?_, ?_, ?_, ?_, ?_, ?_, ?_, ?_⟩
  all_goals simp only [mkSimulator, Revnet.create, Pool.create]
  all_goals try split_ifs
  all_goals assumption

lemma mkSimulator_inv (rp : RevnetParams) (pp : PoolParams) (sp : SimParams)
    (hpremint : 0 ≤ rp.premintAmount) (hpe : 0 ≤ pp.eth) (hpt : 0 ≤ pp.revnetToken) :
    SimInv (mkSimulator rp pp sp) := by
  refine ⟨?_, ?_, ?_, ?_, ?_, ?_⟩
  all_goals simp only [mkSimulator, Revnet.create, Pool.create]
  · split_ifs <;> exact hpremint
  · exact hpt
  · exact hpe
  · split_ifs <;> exact le_refl 0
  · intro t ht
    exact absurd ht (List.not_mem_nil t)
  · split_ifs with hpos
    · simp [pendingSum]
    · have h0 : pp.revnetToken = 0 := le_antisymm (not_lt.mp hpos) hpt
      simp [pendingSum, h0]

/-- C1: on every state reachable from a freshly constructed simulator by any
sequence of purchase events, eligible sale events, and day advances (with
liquidity feeds happening inside the events, as in the daily loop), and with
the constructor parameters in their documented ranges, the Revnet's
`tokenSupply` is at least `tokensSentToBoost`. -/
theorem tokenSupply_ge_tokensSentToBoost (rp : RevnetParams) (pp : PoolParams)
    (sp : SimParams)
    (hpremint : 0 ≤ rp.premintAmount)
    (hpct0 : 0 ≤ rp.priceCeilingIncreasePercentage)
    (hpct1 : rp.priceCeilingIncreasePercentage ≤ 1)
    (htax0 : 0 ≤ rp.priceFloorTaxIntensity) (htax1 : rp.priceFloorTaxIntensity ≤ 1)
    (hbp0 : 0 ≤ rp.boostPercent) (hbp1 : rp.boostPercent ≤ 1)
    (hpe : 0 ≤ pp.eth) (hpt : 0 ≤ pp.revnetToken)
    (hfee0 : 0 ≤ pp.fee) (hfee1 : pp.fee ≤ 1)
    (htr0 : 0 ≤ sp.revnetTokenLiquidityRatio) (htr1 : sp.revnetTokenLiquidityRatio ≤ 1)
    (her0 : 0 ≤ sp.ethLiquidityRatio)
    (s : Simulator)
    (hreach : Relation.ReflTransGen SimStep (mkSimulator rp pp sp) s) :
    s.revnet.tokensSentToBoost ≤ s.revnet.tokenSupply := by
  have hinv : ParamsOK s ∧ SimInv s := by
    induction hreach with
    | refl =>
      exact ⟨mkSimulator_paramsOK rp pp sp hpct0 hpct1 htax0 htax1 hbp0 hbp1
          hfee0 hfee1 htr0 htr1 her0,
        mkSimulator_inv rp pp sp hpremint hpe hpt⟩
    | tail hab hbc ih => exact simStep_preserve hbc ih.1 ih.2
  obtain ⟨hp, hi⟩ := hinv
  have hsum := pendingSum_nonneg _ _ hi.pending0
  linarith [hi.conserve, hi.poolTok0, hsum]

/-- C1 witness: the invariant theorem applied to the state reached from the
shared witness configuration by one purchase event of 1 ETH. -/
theorem tokenSupply_ge_tokensSentToBoost_witness :
    ((mkSimulator rpWit ppWit spWit).purchaseStep 1).1.revnet.tokensSentToBoost ≤
      ((mkSimulator rpWit ppWit spWit).purchaseStep 1).1.revnet.tokenSupply :=
  tokenSupply_ge_tokensSentToBoost rpWit ppWit spWit
    (by norm_num [rpWit]) (by norm_num [rpWit]) (by norm_num [rpWit])
    (by norm_num [rpWit]) (by norm_num [rpWit]) (by norm_num [rpWit])
    (by norm_num [rpWit]) (by norm_num [ppWit]) (by norm_num [ppWit])
    (by norm_num [ppWit]) (by norm_num [ppWit]) (by norm_num [spWit])
    (by norm_num [spWit]) (by norm_num [spWit])
    ((mkSimulator rpWit ppWit spWit).purchaseStep 1).1
    (Relation.ReflTransGen.refl.tail
      (SimStep.purchase (mkSimulator rpWit ppWit spWit) 1 (by norm_num)))

/-- Concrete Revnet for the C2 amended-claim witness: freshly deployed, no
premint, zero balance and zero supply (which is balanced at the ceiling). -/
def revnetWitC2 : Revnet := Revnet.create 0 1 0 0 0 0

/-- C2 (amended) witness: on the fresh `revnetWitC2`, paying 1 ETH in and
destroying the received tokens the same day returns exactly 1 ETH. -/
theorem roundTrip_exact_of_balanced_witness :
    ((revnetWitC2.createTokensAtCeiling 1 0).2.destroyTokensAtFloor
        (revnetWitC2.createTokensAtCeiling 1 0).1).1 = 1 :=
  roundTrip_exact_of_balanced revnetWitC2 1 0 (by norm_num)
    (by norm_num [revnetWitC2, Revnet.create])
    (by norm_num [revnetWitC2, Revnet.create])
    (by norm_num [revnetWitC2, Revnet.create])
    (by norm_num [revnetWitC2, Revnet.create, Revnet.getTokensCreatedPerEth])
    (by norm_num [revnetWitC2, Revnet.create, Revnet.getTokensCreatedPerEth])
